import Mathlib

/-!
Verification development for the cloud-agentic-skill service.

We shallowly embed the skill data model (`app/core/models.py`), the
Elasticsearch-backed store (`app/repositories/elasticsearch.py`, modelled as a
list of documents with lookup by id), the orchestrator
(`app/services/orchestrator.py`), the auth service (`app/services/auth.py`)
and the MCP tool router (`app/mcp/router.py`, `app/mcp/adapter.py`).

Vector search and the embedding model are external systems (Elasticsearch
and SentenceTransformers); the discovery step is therefore modelled as an
abstract function `disc : String → Nat → List SkillDiscovery` standing for
`λ query k, repo.search_by_vector(embedding.encode(query), k)` mapped through
`SkillOrchestrator.discover`'s field projection.
-/

/-- A skill document, after `SkillBase` in `app/core/models.py`.
`skill_desc_vector` is omitted: it is only written, never read, by the
embedded operations. -/
structure Skill where
  skill_id : String
  summary : String
  is_folder : Bool
  sub_skills : List String
  instruction : String
deriving DecidableEq, Repr

/-- The skill index: a flat list of documents keyed by `skill_id`. -/
abbrev Store := List Skill

/-- `SkillRepository.get_by_id`: fetch a document by id (`None` when absent).
The `fields` projection of the Python repository is dropped because the typed
model carries every field. -/
def getById (store : Store) (skill_id : String) : Option Skill :=
  store.find? (fun d => d.skill_id == skill_id)

/-- Lightweight search/navigation result, after `SkillDiscovery` in
`app/core/models.py`. The float relevance score is carried as a rational:
no embedded operation computes with it, it is only passed through. -/
structure SkillDiscovery where
  skill_id : String
  summary : String
  sub_skills : List String
  score : Rat
deriving DecidableEq, Repr

section Auth

/-!
`AuthService` permission helpers (`app/services/auth.py`).
-/

/-- Recursion core of `AuthService._is_descendant`.

The Python code counts `_depth` upward from 0 and returns `False` as soon as
`_depth > 10`; it recurses with `_depth + 1`.  We embed it structurally on the
remaining gas `gas = 11 - _depth`: `gas = 0` is exactly `_depth > 10`, and the
recursive call at `_depth + 1` has gas `gas - 1`. -/
def isDescendantAux (store : Store) (target : String) : Nat → String → Bool
  | 0, _ => false
  | gas + 1, parent =>
    match getById store parent with
    | none => false
    | some doc =>
      if doc.sub_skills.contains target then true
      else doc.sub_skills.any (fun s => isDescendantAux store target gas s)

/-- `AuthService._is_descendant(target, parent, _depth)`. -/
def isDescendant (store : Store) (target parent : String) (dep : Nat) : Bool :=
  isDescendantAux store target (11 - dep) parent

/-- `AuthService.is_skill_accessible(skill_id, allowed_skills)`: true when the
allow-list is empty, when `skill_id` is listed, or when `skill_id` is a
descendant (depth-capped walk) of a listed id. -/
def isSkillAccessible (store : Store) (skill_id : String) (allowed : List String) : Bool :=
  if allowed.isEmpty then true
  else if allowed.contains skill_id then true
  else allowed.any (fun parent => isDescendant store skill_id parent 0)

/-- A linear chain of `n` skills `s1 → s2 → ⋯ → sn`, each skill's
`sub_skills` containing exactly the next. -/
def mkChain (n : Nat) : Store :=
  (List.range n).map (fun i =>
    { skill_id := "s" ++ toString (i + 1)
      summary := ""
      is_folder := true
      sub_skills := if i + 1 < n then ["s" ++ toString (i + 2)] else []
      instruction := "" })

/-- All ids that occur in some stored document's `sub_skills` (the
`child_ids` universe; multiplicity is irrelevant, only membership is used). -/
def childIdsOf (docs : List Skill) : List String :=
  docs.flatMap (fun d => d.sub_skills)

/-- One pass of the inner `for child in doc.get("sub_skills", [])` loop of
`AuthService.get_all_descendants`: every child not yet in the result set is
added to the result and pushed on the stack (head of the list = top of the
Python list-stack). -/
def pushChildren (result stack : List String) : List String → List String × List String
  | [] => (result, stack)
  | c :: cs =>
    if result.contains c then pushChildren result stack cs
    else pushChildren (c :: result) (c :: stack) cs

/-- The `while stack:` loop of `AuthService.get_all_descendants`, with an
explicit fuel argument standing in for the unbounded Python loop: `none`
means the fuel ran out before the stack emptied.  `gadLoop_isSome` below
shows the canonical fuel `gadFuel` never runs out. -/
def gadLoop (store : Store) : Nat → List String → List String → Option (List String)
  | _, result, [] => some result
  | 0, _, _ :: _ => none
  | fuel + 1, result, current :: stack =>
    match getById store current with
    | none => gadLoop store fuel result stack
    | some doc =>
      let rs := pushChildren result stack doc.sub_skills
      gadLoop store fuel rs.1 rs.2

/-- Fuel sufficient for `gadLoop`: the loop pops one entry per iteration and
every push consumes a fresh member of `childIdsOf store`. -/
def gadFuel (store : Store) (skill_ids : List String) : Nat :=
  skill_ids.length + (childIdsOf store).length

/-- Lexicographic strict order on code-point lists, as Python compares
strings. -/
def charListLt : List Char → List Char → Bool
  | [], [] => false
  | [], _ :: _ => true
  | _ :: _, [] => false
  | a :: as, b :: bs => if a < b then true else if b < a then false else charListLt as bs

/-- `a ≤ b` on string ids under the lexicographic order. -/
def strLe (a b : String) : Bool := !(charListLt b.data a.data)

/-- Insert into an ascending list, keeping it ascending. -/
def insertSorted (a : String) : List String → List String
  | [] => [a]
  | b :: bs => if strLe a b then a :: b :: bs else b :: insertSorted a bs

/-- Python's `sorted` on string ids (insertion sort; any correct
comparison sort produces the same ascending list). -/
def sortStrings (l : List String) : List String :=
  l.foldr insertSorted []

/-- `AuthService.get_all_descendants(skill_ids)`: every id reachable from the
given roots, deduplicated (`result` is a Python `set`, modelled as a list with
membership as the set view) and returned sorted. -/
def getAllDescendants (store : Store) (skill_ids : List String) : Option (List String) :=
  (gadLoop store (gadFuel store skill_ids) skill_ids.dedup skill_ids.reverse).map sortStrings

/-- Count of child ids not yet collected: the potential of the visited set. -/
def phi (store : Store) (result : List String) : Nat :=
  ((childIdsOf store).filter (fun c => !result.contains c)).length

end Auth

section Orchestrator

/-!
`SkillOrchestrator` (`app/services/orchestrator.py`).  Discovery
(`discover`) encodes the query and performs vector search; both live outside
the pure data model, so every operation that discovers takes
`disc : String → Nat → List SkillDiscovery` — the composite
`λ query k, [SkillDiscovery(**h) for h in repo.search_by_vector(encode(query), k)]` —
as an input.  Passing `disc` separately from `store` also lets a single
`resolve` run read a discovery snapshot that disagrees with the store it
fetches from, which is exactly the discover-then-delete race.
-/

/-- `SkillOrchestrator.get_skill(skill_id, include_instruction)`.  When the
instruction is not requested the Python code omits the field and the
`SkillRead` model fills in its `""` default. -/
def getSkill (store : Store) (skill_id : String) (include_instruction : Bool) : Option Skill :=
  (getById store skill_id).map
    (fun d => if include_instruction then d else { d with instruction := "" })

/-- `SkillOrchestrator.get_sub_skills(skill_id)`: lightweight info for every
child of `skill_id`; children whose id resolves to no document are skipped. -/
def getSubSkills (store : Store) (skill_id : String) : List SkillDiscovery :=
  match getById store skill_id with
  | none => []
  | some parent =>
    parent.sub_skills.filterMap (fun sid =>
      (getById store sid).map (fun child =>
        { skill_id := child.skill_id
          summary := child.summary
          sub_skills := child.sub_skills
          score := 0 }))

/-- The three return shapes of `SkillOrchestrator.resolve`. -/
inductive ResolveResult
  | notResolved (message : String)
  | folder (entry : Skill) (children : List SkillDiscovery) (hint : String)
  | leaf (skill : Skill)
deriving DecidableEq, Repr

/-- `SkillOrchestrator.resolve(query)`: discover the best entry point
(`k = 1`), re-fetch it, and either report it, list its children (folder with
sub-skills), or report non-resolution. -/
def resolve (disc : String → Nat → List SkillDiscovery) (store : Store)
    (query : String) : ResolveResult :=
  match disc query 1 with
  | [] => .notResolved "No matching skill found."
  | entry :: _ =>
    match getSkill store entry.skill_id true with
    | none => .notResolved "Skill disappeared after discovery."
    | some skill =>
      if skill.is_folder && !skill.sub_skills.isEmpty then
        .folder skill (getSubSkills store skill.skill_id)
          "Pick a sub-skill and call get_skill to load its instruction."
      else .leaf skill

/-- Recursive tree node, after `SkillTree` in `app/core/models.py`. -/
inductive SkillTree
  | node (skill_id : String) (summary : String) (is_folder : Bool)
      (children : List SkillTree)

/-- The id at the root of a tree node. -/
def SkillTree.sid : SkillTree → String
  | .node skill_id _ _ _ => skill_id

/-- `repo.list_all(size)`: at most `size` documents of the index
(the Python repository also strips `instruction` and the vector, which the
tree builder never reads). -/
def listAll (store : Store) (size : Nat) : List Skill :=
  store.take size

/-- The dict comprehension `{d["skill_id"]: d for d in all_docs}`: on
duplicate ids the last document wins, hence the lookup scans from the right. -/
def lookupGet (docs : List Skill) (sid : String) : Option Skill :=
  docs.reverse.find? (fun d => d.skill_id == sid)

/-- The inner `_build` recursion of `SkillOrchestrator.build_tree` with an
explicit fuel standing in for Python's unbounded recursion: `none` models the
divergence that cyclic reachable data would cause.  Children whose id is
absent from the lookup are skipped. -/
def buildNode (lookup : List Skill) : Nat → Skill → Option SkillTree
  | 0, _ => none
  | fuel + 1, doc =>
    ((doc.sub_skills.filterMap (fun sid => lookupGet lookup sid)).mapM
        (fun child => buildNode lookup fuel child)).map
      (fun children => .node doc.skill_id doc.summary doc.is_folder children)

/-- `SkillOrchestrator.build_tree()`: load up to 500 documents, take as roots
every document whose id appears in nobody's `sub_skills`, and expand each
root recursively.  Fuel `all_docs.length + 1` bounds the recursion depth of
any acyclic expansion. -/
def buildTree (store : Store) : Option (List SkillTree) :=
  let all_docs := listAll store 500
  let roots := all_docs.filter (fun d => !((childIdsOf all_docs).contains d.skill_id))
  roots.mapM (fun r => buildNode all_docs (all_docs.length + 1) r)

end Orchestrator

section Router

/-!
`MCPAdapter` (`app/mcp/adapter.py`) and `MCPToolRouter` (`app/mcp/router.py`).
Tool arguments arrive as a JSON object; the embedded `ToolArgs` records each
schema field as present (`some`) or absent (`none`).
-/

/-- The arguments object of a tool call (`query` and `k` for
`find_relevant_skill`, `skill_id` for the other two tools). -/
structure ToolArgs where
  query : Option String
  skill_id : Option String
  k : Option Nat
deriving DecidableEq, Repr

/-- One entry of `format_discovery`'s `results` array. -/
structure DiscItem where
  skill_id : String
  summary : String
  has_children : Bool
  score : Rat
deriving DecidableEq, Repr

/-- One entry of `format_sub_skills`'s `children` array. -/
structure ChildItem where
  skill_id : String
  summary : String
  has_children : Bool
deriving DecidableEq, Repr

/-- The dict shapes returned on the legacy REST path: the inline error object
`\x7b"error": msg\x7d` or one of the three typed envelopes. -/
inductive LegacyResp
  | error (message : String)
  | discovery (results : List DiscItem)
  | instructionEnvelope (skill_id : String) (summary : String) (content : String)
      (sub_skills : List String)
  | childrenEnvelope (children : List ChildItem)
deriving DecidableEq, Repr

/-- `MCPAdapter.format_discovery`. -/
def formatDiscovery (skills : List SkillDiscovery) : LegacyResp :=
  .discovery (skills.map (fun s =>
    { skill_id := s.skill_id
      summary := s.summary
      has_children := !s.sub_skills.isEmpty
      score := s.score }))

/-- `MCPAdapter.format_instruction`. -/
def formatInstruction (skill : Skill) : LegacyResp :=
  .instructionEnvelope skill.skill_id skill.summary skill.instruction skill.sub_skills

/-- `MCPAdapter.format_sub_skills`. -/
def formatSubSkills (children : List SkillDiscovery) : LegacyResp :=
  .childrenEnvelope (children.map (fun c =>
    { skill_id := c.skill_id
      summary := c.summary
      has_children := !c.sub_skills.isEmpty }))

/-- Legacy handler `MCPToolRouter._find`: `args["query"]` is a bare
subscript, so an absent `query` raises `KeyError` — embedded as the
exceptional (`Except.error`) outcome, distinct from the in-band
`LegacyResp.error` object. -/
def findHandler (disc : String → Nat → List SkillDiscovery) (args : ToolArgs) :
    Except String LegacyResp :=
  match args.query with
  | none => .error "KeyError: query"
  | some query =>
    let k := args.k.getD 3
    .ok (formatDiscovery (disc query k))

/-- Legacy handler `MCPToolRouter._load`: bare `args["skill_id"]` subscript;
a missing document yields the in-band error object. -/
def loadHandler (store : Store) (args : ToolArgs) : Except String LegacyResp :=
  match args.skill_id with
  | none => .error "KeyError: skill_id"
  | some sid =>
    match getSkill store sid true with
    | none => .ok (.error ("Skill \x27" ++ sid ++ "\x27 not found."))
    | some skill => .ok (formatInstruction skill)

/-- Legacy handler `MCPToolRouter._list_children`: bare `args["skill_id"]`
subscript. -/
def listChildrenHandler (store : Store) (args : ToolArgs) : Except String LegacyResp :=
  match args.skill_id with
  | none => .error "KeyError: skill_id"
  | some sid => .ok (formatSubSkills (getSubSkills store sid))

/-- `MCPToolRouter.call_tool(name, arguments)` — the legacy REST dispatch. -/
def callTool (disc : String → Nat → List SkillDiscovery) (store : Store)
    (name : String) (args : ToolArgs) : Except String LegacyResp :=
  if name == "find_relevant_skill" then findHandler disc args
  else if name == "load_instruction" then loadHandler store args
  else if name == "list_sub_skills" then listChildrenHandler store args
  else .ok (.error ("Unknown tool: " ++ name))

/-- Result of `MCPToolRouter._call_tool_mcp`: the in-band error object or an
MCP content payload `\x7b"content": [\x7b"type": "text", "text": t\x7d]\x7d`. -/
inductive McpToolResult
  | error (message : String)
  | content (text : String)
deriving DecidableEq, Repr

/-- Python's `str(bool)` as it appears in the rendered f-strings. -/
def pyBool (b : Bool) : String := if b then "True" else "False"

/-- Models the fixed-point rendering `f"\x7bscore:.3f\x7d"` used by
`format_discovery_content` (three decimals, round-half-up on the rational
carrier; the binary-float rounding detail of CPython is outside the data
model and no claim depends on it). -/
def fmtScore (score : Rat) : String :=
  let n : Int := Rat.floor (score * 1000 + 1 / 2)
  let whole := n / 1000
  let frac := (n % 1000).natAbs
  let fs := toString frac
  let pad := if frac < 10 then "00" else if frac < 100 then "0" else ""
  toString whole ++ "." ++ pad ++ fs

/-- `MCPAdapter.format_discovery_content`: two rendered lines per result,
joined with newlines, or a fixed fallback when the result list is empty. -/
def formatDiscoveryContent (skills : List SkillDiscovery) : McpToolResult :=
  let lines := (skills.enumFrom 1).flatMap (fun p =>
    [toString p.1 ++ ". **" ++ p.2.skill_id ++ "**  (score: " ++ fmtScore p.2.score
        ++ ", folder: " ++ pyBool (!p.2.sub_skills.isEmpty) ++ ")",
      "   " ++ p.2.summary])
  .content (if lines.isEmpty then "No matching skills found."
    else String.intercalate "\n" lines)

/-- `MCPAdapter.format_instruction_content`: the raw Markdown, or a fallback
when the instruction is falsy (empty). -/
def formatInstructionContent (skill : Skill) : McpToolResult :=
  .content (if skill.instruction == "" then "_No instruction available._"
    else skill.instruction)

/-- `MCPAdapter.format_sub_skills_content`: one rendered line per child, or a
fixed fallback when there are none. -/
def formatSubSkillsContent (children : List SkillDiscovery) : McpToolResult :=
  let lines := children.map (fun c =>
    "- **" ++ c.skill_id ++ "**: " ++ c.summary ++ " ("
      ++ (if !c.sub_skills.isEmpty then "folder" else "leaf") ++ ")")
  .content (if lines.isEmpty then "No child skills found."
    else String.intercalate "\n" lines)

/-- `MCPToolRouter._call_tool_mcp(name, arguments)` — the MCP-spec dispatch.
Required arguments are read with `.get(...)` and checked for falsiness
(`if not query` / `if not skill_id`), so both absence and the empty string
produce the in-band error object. -/
def callToolMcp (disc : String → Nat → List SkillDiscovery) (store : Store)
    (name : String) (args : ToolArgs) : McpToolResult :=
  if name == "find_relevant_skill" then
    match args.query with
    | none => .error "Missing required argument: \x27query\x27"
    | some query =>
      if query == "" then .error "Missing required argument: \x27query\x27"
      else formatDiscoveryContent (disc query (args.k.getD 3))
  else if name == "load_instruction" then
    match args.skill_id with
    | none => .error "Missing required argument: \x27skill_id\x27"
    | some sid =>
      if sid == "" then .error "Missing required argument: \x27skill_id\x27"
      else
        match getSkill store sid true with
        | none => .error ("Skill \x27" ++ sid ++ "\x27 not found.")
        | some skill => formatInstructionContent skill
  else if name == "list_sub_skills" then
    match args.skill_id with
    | none => .error "Missing required argument: \x27skill_id\x27"
    | some sid =>
      if sid == "" then .error "Missing required argument: \x27skill_id\x27"
      else formatSubSkillsContent (getSubSkills store sid)
  else .error ("Unknown tool: \x27" ++ name ++ "\x27")

/-- One tool of the catalogue (`MCPAdapter.tool_definitions`): name and the
`required` list of its input schema (descriptions and property types are
documentation only). -/
structure ToolDef where
  name : String
  required : List String
deriving DecidableEq, Repr

/-- The fixed tool catalogue. -/
def toolDefinitions : List ToolDef :=
  [⟨"find_relevant_skill", ["query"]⟩,
    ⟨"load_instruction", ["skill_id"]⟩,
    ⟨"list_sub_skills", ["skill_id"]⟩]

/-- The `params` object of a JSON-RPC request. -/
structure RpcParams where
  name : Option String
  arguments : Option ToolArgs
deriving DecidableEq, Repr

/-- A JSON-RPC 2.0 request body: `id`, `method` and `params`, each possibly
absent. -/
structure RpcBody where
  id : Option Nat
  method : Option String
  params : Option RpcParams
deriving DecidableEq, Repr

/-- The `result` payloads produced by `handle_jsonrpc`'s `_ok`. -/
inductive RpcResult
  | initializeInfo (protocolVersion serverName serverVersion : String)
  | toolsList (tools : List ToolDef)
  | toolResult (text : String)
deriving DecidableEq, Repr

/-- A JSON-RPC 2.0 response: `_ok` or `_err` of `handle_jsonrpc`. -/
inductive RpcResp
  | ok (id : Option Nat) (result : RpcResult)
  | err (id : Option Nat) (code : Int) (message : String)
deriving DecidableEq, Repr

/-- `MCPToolRouter.handle_jsonrpc(body)`: dispatch on `body.get("method", "")`
over `initialize`, `tools/list` and `tools/call`; anything else is `-32601`.
`tools/call` requires a truthy `name` (`-32602` otherwise) and surfaces
in-band tool errors as `-32603`. -/
def handleJsonrpc (disc : String → Nat → List SkillDiscovery) (store : Store)
    (body : RpcBody) : RpcResp :=
  let rpc_id := body.id
  let params := body.params.getD ⟨none, none⟩
  let method := body.method.getD ""
  if method == "initialize" then
    .ok rpc_id (.initializeInfo "2024-11-05" "cloud-agentic-skill" "1.0.0")
  else if method == "tools/list" then
    .ok rpc_id (.toolsList toolDefinitions)
  else if method == "tools/call" then
    match params.name with
    | none => .err rpc_id (-32602) "Missing required param: \x27name\x27"
    | some name =>
      if name == "" then .err rpc_id (-32602) "Missing required param: \x27name\x27"
      else
        match callToolMcp disc store name (params.arguments.getD ⟨none, none, none⟩) with
        | .error msg => .err rpc_id (-32603) msg
        | .content text => .ok rpc_id (.toolResult text)
  else .err rpc_id (-32601) ("Method not found: \x27" ++ method ++ "\x27")

end Router

section Fixtures

/-- A discovery function returning one fixed hit for every query. -/
def constDisc : String → Nat → List SkillDiscovery := fun _ _ => [⟨"X", "x", [], 0⟩]

/-- A discovery function returning no hits. -/
def noDisc : String → Nat → List SkillDiscovery := fun _ _ => []

/-- A discovery hit whose id exists in no store. -/
def ghostDiscovery : SkillDiscovery := ⟨"GHOST", "", [], 0⟩

/-- A discovery function returning only `ghostDiscovery`. -/
def ghostDisc : String → Nat → List SkillDiscovery := fun _ _ => [ghostDiscovery]

/-- Two skills listing each other: a cyclic `sub_skills` graph. -/
def cycStore : Store := [⟨"A", "", true, ["B"], ""⟩, ⟨"B", "", true, ["A"], ""⟩]

/-- A single skill listing itself as its own sub-skill. -/
def selfStore : Store := [⟨"A", "a", false, ["A"], ""⟩]

/-- The forest fixture `A → [B, C]`, `B → []`, `C → []`. -/
def forestStore : Store :=
  [⟨"A", "a", true, ["B", "C"], ""⟩, ⟨"B", "b", false, [], ""⟩, ⟨"C", "c", false, [], ""⟩]

/-- A skill whose lone `sub_skills` entry references no existing skill. -/
def ghostStore : Store := [⟨"A", "a", false, ["GHOST"], ""⟩]

/-- A store with a single childless skill `B`. -/
def leafStore : Store := [⟨"B", "b", false, [], ""⟩]

end Fixtures

section Helpers

lemma length_filter_mono {α : Type} (p q : α → Bool) (h : ∀ a, p a = true → q a = true)
    (l : List α) : (l.filter p).length ≤ (l.filter q).length := by
  induction l with
  | nil => simp
  | cons a l ih =>
    rcases hp : p a with _ | _
    · rcases hq : q a with _ | _ <;> simp [List.filter_cons, hp, hq] <;> omega
    · have hq := h a hp
      simp [List.filter_cons, hp, hq]
      omega

lemma length_filter_lt {α : Type} (p q : α → Bool) (h : ∀ a, p a = true → q a = true)
    (c : α) (l : List α) (hc : c ∈ l) (hpc : p c = false) (hqc : q c = true) :
    (l.filter p).length < (l.filter q).length := by
  induction l with
  | nil => cases hc
  | cons a l ih =>
    rcases List.mem_cons.mp hc with rfl | hmem
    · have h1 := length_filter_mono p q h l
      simp [List.filter_cons, hpc, hqc]
      omega
    · rcases hp : p a with _ | _
      · rcases hq : q a with _ | _ <;> simp [List.filter_cons, hp, hq] <;> [exact ih hmem; skip]
        have := ih hmem
        omega
      · have hq := h a hp
        simp [List.filter_cons, hp, hq]
        exact ih hmem

lemma phi_cons_lt (store : Store) (result : List String) (c : String)
    (hc : c ∈ childIdsOf store) (hcr : result.contains c = false) :
    phi store (c :: result) < phi store result := by
  unfold phi
  refine length_filter_lt _ _ ?_ c _ hc ?_ ?_
  · intro a ha
    simp at ha ⊢
    exact ha.2
  · simp
  · simp at hcr ⊢
    exact hcr

lemma pushChildren_measure (store : Store) :
    ∀ (cs result stack : List String), (∀ c ∈ cs, c ∈ childIdsOf store) →
      (pushChildren result stack cs).2.length + phi store (pushChildren result stack cs).1
        ≤ stack.length + phi store result := by
  intro cs
  induction cs with
  | nil => intro result stack _; simp [pushChildren]
  | cons c cs ih =>
    intro result stack hmem
    rcases hcr : result.contains c with _ | _
    · have h1 := ih (c :: result) (c :: stack)
        (fun x hx => hmem x (List.mem_cons_of_mem _ hx))
      have h2 := phi_cons_lt store result c (hmem c (List.mem_cons_self _ _)) hcr
      simp only [pushChildren, hcr]
      simp only [Bool.false_eq_true, if_false]
      have h3 : (c :: stack).length = stack.length + 1 := by simp
      omega
    · simp only [pushChildren, hcr, if_true]
      exact ih result stack (fun x hx => hmem x (List.mem_cons_of_mem _ hx))

lemma gadLoop_isSome (store : Store) :
    ∀ (fuel : Nat) (result stack : List String),
      stack.length + phi store result ≤ fuel →
      (gadLoop store fuel result stack).isSome := by
  intro fuel
  induction fuel with
  | zero =>
    intro result stack h
    match stack with
    | [] => simp [gadLoop]
    | s :: st =>
      exfalso
      simp [List.length_cons] at h
  | succ fuel ih =>
    intro result stack h
    match stack with
    | [] => simp [gadLoop]
    | current :: stack =>
      simp only [gadLoop]
      rcases hdoc : getById store current with _ | doc
      · exact ih result stack (by simp [List.length_cons] at h; omega)
      · have hdmem : doc ∈ store := by
          unfold getById at hdoc
          exact List.mem_of_find?_eq_some hdoc
        have hsub : ∀ c ∈ doc.sub_skills, c ∈ childIdsOf store := by
          intro c hcmem
          exact List.mem_flatMap.mpr ⟨doc, hdmem, hcmem⟩
        have hm := pushChildren_measure store doc.sub_skills result stack hsub
        apply ih
        simp [List.length_cons] at h
        omega

lemma buildNode_sid (lookup : List Skill) (fuel : Nat) (d : Skill) (t : SkillTree)
    (h : buildNode lookup fuel d = some t) : t.sid = d.skill_id := by
  cases fuel with
  | zero => simp [buildNode] at h
  | succ fuel =>
    simp only [buildNode] at h
    rcases hm : (d.sub_skills.filterMap (fun sid => lookupGet lookup sid)).mapM
        (fun child => buildNode lookup fuel child) with _ | cs
    · rw [hm] at h
      simp at h
    · rw [hm] at h
      simp at h
      rw [← h]
      rfl

lemma mapM_buildNode_sids (lookup : List Skill) (fuel : Nat) :
    ∀ (roots : List Skill) (ts : List SkillTree),
      roots.mapM (fun r => buildNode lookup fuel r) = some ts →
      ts.map SkillTree.sid = roots.map Skill.skill_id := by
  intro roots
  induction roots with
  | nil =>
    intro ts h
    rw [List.mapM_nil] at h
    injection h with h
    rw [← h]
    rfl
  | cons r rs ih =>
    intro ts h
    rw [List.mapM_cons] at h
    rcases hb : buildNode lookup fuel r with _ | t
    · rw [hb] at h
      simp at h
    · rw [hb] at h
      rcases hbs : rs.mapM (fun x => buildNode lookup fuel x) with _ | ts'
      · rw [hbs] at h
        simp at h
      · rw [hbs] at h
        simp at h
        rw [← h]
        simp [buildNode_sid lookup fuel r t hb, ih ts' hbs]

end Helpers

/-- C1 counterexample: in a chain of 12 nested skills with only the root
allow-listed, the 12th-level descendant IS accessible — the depth-10 cap has
not yet been reached when the 11th skill (recursion depth 10) exposes the
12th in its `sub_skills`. -/
theorem chain12_last_skill_accessible :
    isSkillAccessible (mkChain 12) "s12" ["s1"] = true := by decide

/-- C1 (amended): the depth cap first bites one level deeper: in a chain of
13 nested skills with only the root allow-listed, the 13th-level descendant
is inaccessible (the parent at recursion depth 11 is not expanded), while the
12th-level one is still accessible. -/
theorem chain13_depth_capped :
    isSkillAccessible (mkChain 13) "s13" ["s1"] = false ∧
      isSkillAccessible (mkChain 13) "s12" ["s1"] = true := by decide

/-- C2 counterexample: for the same arguments object (`query` present but
empty) the legacy path performs the discovery and returns its result set
while the JSON-RPC path performs no discovery and reports a missing-argument
error — a divergence in underlying effect, not merely in envelope. -/
theorem find_paths_diverge_on_empty_query :
    callTool constDisc [] "find_relevant_skill" ⟨some "", none, none⟩
        = .ok (.discovery [⟨"X", "x", false, 0⟩]) ∧
      callToolMcp constDisc [] "find_relevant_skill" ⟨some "", none, none⟩
        = .error "Missing required argument: \x27query\x27" := by
  constructor <;> rfl

/-- C2 (amended): whenever `query` is present and non-empty, both dispatch
paths invoke the same discovery with the same query and the same `k`
(defaulting to 3) and return that one result set under their respective
envelopes. -/
theorem find_paths_agree_on_present_query (disc : String → Nat → List SkillDiscovery)
    (store : Store) (args : ToolArgs) (q : String)
    (hq : args.query = some q) (hne : q ≠ "") :
    callTool disc store "find_relevant_skill" args
        = .ok (formatDiscovery (disc q (args.k.getD 3))) ∧
      callToolMcp disc store "find_relevant_skill" args
        = formatDiscoveryContent (disc q (args.k.getD 3)) := by
  have hb : (q == "") = false := by simpa using hne
  constructor
  · simp [callTool, findHandler, hq]
  · simp [callToolMcp, hq, hb]

/-- Witness for the amended C2 theorem at a concrete query. -/
theorem find_paths_agree_on_present_query_witness :
    callTool constDisc [] "find_relevant_skill" ⟨some "db", none, some 2⟩
        = .ok (formatDiscovery (constDisc "db" 2)) ∧
      callToolMcp constDisc [] "find_relevant_skill" ⟨some "db", none, some 2⟩
        = formatDiscoveryContent (constDisc "db" 2) :=
  find_paths_agree_on_present_query constDisc [] ⟨some "db", none, some 2⟩ "db" rfl
    (by decide)

/-- C3 counterexample: on the legacy path an absent required argument does
not produce the in-band error object — the bare subscript raises (the
`Except.error` outcome), for all three tools. -/
theorem legacy_missing_arg_raises :
    callTool noDisc [] "find_relevant_skill" ⟨none, none, none⟩
        = .error "KeyError: query" ∧
      callTool noDisc [] "load_instruction" ⟨none, none, none⟩
        = .error "KeyError: skill_id" ∧
      callTool noDisc [] "list_sub_skills" ⟨none, none, none⟩
        = .error "KeyError: skill_id" := by
  refine ⟨rfl, rfl, rfl⟩

/-- C3 (amended): the JSON-RPC `tools/call` handlers return a caller-visible
error object when a required argument is absent; the legacy handlers instead
raise a `KeyError`. -/
theorem missing_required_argument_handling (disc : String → Nat → List SkillDiscovery)
    (store : Store) (args : ToolArgs)
    (hq : args.query = none) (hs : args.skill_id = none) :
    callToolMcp disc store "find_relevant_skill" args
        = .error "Missing required argument: \x27query\x27" ∧
      callToolMcp disc store "load_instruction" args
        = .error "Missing required argument: \x27skill_id\x27" ∧
      callToolMcp disc store "list_sub_skills" args
        = .error "Missing required argument: \x27skill_id\x27" ∧
      callTool disc store "find_relevant_skill" args = .error "KeyError: query" ∧
      callTool disc store "load_instruction" args = .error "KeyError: skill_id" ∧
      callTool disc store "list_sub_skills" args = .error "KeyError: skill_id" := by
  refine ⟨?_, ?_, ?_, ?_, ?_, ?_⟩ <;>
    simp [callToolMcp, callTool, findHandler, loadHandler, listChildrenHandler, hq, hs]

/-- Witness for the amended C3 theorem at the empty arguments object. -/
theorem missing_required_argument_handling_witness :
    callToolMcp noDisc [] "find_relevant_skill" ⟨none, none, none⟩
        = .error "Missing required argument: \x27query\x27" ∧
      callToolMcp noDisc [] "load_instruction" ⟨none, none, none⟩
        = .error "Missing required argument: \x27skill_id\x27" ∧
      callToolMcp noDisc [] "list_sub_skills" ⟨none, none, none⟩
        = .error "Missing required argument: \x27skill_id\x27" ∧
      callTool noDisc [] "find_relevant_skill" ⟨none, none, none⟩
        = .error "KeyError: query" ∧
      callTool noDisc [] "load_instruction" ⟨none, none, none⟩
        = .error "KeyError: skill_id" ∧
      callTool noDisc [] "list_sub_skills" ⟨none, none, none⟩
        = .error "KeyError: skill_id" :=
  missing_required_argument_handling noDisc [] ⟨none, none, none⟩ rfl rfl

/-- C4 counterexample: on the cyclic two-skill graph the expansion
terminates and returns both ids — the `result` set doubles as a visited set,
so the missing depth cap does not make the loop diverge. -/
theorem cyclic_expansion_terminates :
    getAllDescendants cycStore ["A"] = some ["A", "B"] := by rfl

/-- C4 (amended): `get_all_descendants` carries no depth cap, but children
already in the result set are never re-pushed, so the expansion terminates on
every finite store — cyclic `sub_skills` graphs included (the canonical fuel
`gadFuel` always suffices). -/
theorem getAllDescendants_terminates (store : Store) (skill_ids : List String) :
    (getAllDescendants store skill_ids).isSome = true := by
  have h1 : (gadLoop store (gadFuel store skill_ids) skill_ids.dedup
      skill_ids.reverse).isSome := by
    apply gadLoop_isSome
    have hf := List.length_filter_le (fun c => !(skill_ids.dedup.contains c)) (childIdsOf store)
    simp [gadFuel, phi, List.length_reverse] at hf ⊢
    omega
  obtain ⟨r, hr⟩ := Option.isSome_iff_exists.mp h1
  unfold getAllDescendants
  rw [hr]
  rfl

/-- C5 counterexample: a skill listing itself is excluded from the roots even
though it appears in no OTHER skill's `sub_skills` — `build_tree` collects
child ids over all documents, the skill's own list included, so the forest
comes back empty. -/
theorem self_listed_skill_not_root :
    buildTree selfStore = some [] ∧
      selfStore.filter (fun d => d.skill_id != "A" && d.sub_skills.contains "A") = [] := by
  constructor <;> rfl

/-- C5 (amended): `build_tree` treats exactly the skills whose id appears in
no loaded skill's `sub_skills` — their own lists included — as roots (in
store order), and on the `A → [B, C]` store it returns exactly one root `A`
with the two childless children `B` and `C`. -/
theorem buildTree_roots_and_forest :
    (∀ (store : Store) (ts : List SkillTree), buildTree store = some ts →
      ts.map SkillTree.sid
        = ((listAll store 500).filter
            (fun d => !((childIdsOf (listAll store 500)).contains d.skill_id))).map
          Skill.skill_id) ∧
      buildTree forestStore
        = some [.node "A" "a" true [.node "B" "b" false [], .node "C" "c" false []]] := by
  constructor
  · intro store ts h
    unfold buildTree at h
    exact mapM_buildNode_sids _ _ _ _ h
  · rfl

/-- Witness for the amended C5 theorem: the root characterisation evaluated
on the forest fixture. -/
theorem buildTree_roots_and_forest_witness :
    ([SkillTree.node "A" "a" true [.node "B" "b" false [], .node "C" "c" false []]]).map
        SkillTree.sid
      = ((listAll forestStore 500).filter
          (fun d => !((childIdsOf (listAll forestStore 500)).contains d.skill_id))).map
        Skill.skill_id :=
  buildTree_roots_and_forest.1 forestStore
    [SkillTree.node "A" "a" true [.node "B" "b" false [], .node "C" "c" false []]] rfl

/-- C6: a dangling `sub_skills` reference is skipped, not an error:
`get_sub_skills("A")` on `A → ["GHOST"]` is empty and `build_tree` renders
`A` as a childless node. -/
theorem dangling_reference_tolerated :
    getSubSkills ghostStore "A" = [] ∧
      buildTree ghostStore = some [.node "A" "a" false []] := by
  constructor <;> rfl

/-- C7: `resolve` reports a "not resolved" outcome — never an exceptional
one — both when discovery yields nothing and when the discovered id is gone
from the store read afterwards. -/
theorem resolve_reports_not_resolved (disc : String → Nat → List SkillDiscovery)
    (store : Store) (query : String) :
    (disc query 1 = [] → resolve disc store query = .notResolved "No matching skill found.") ∧
      (∀ entry rest, disc query 1 = entry :: rest →
        getById store entry.skill_id = none →
        resolve disc store query = .notResolved "Skill disappeared after discovery.") := by
  constructor
  · intro h
    simp [resolve, h]
  · intro entry rest h hg
    simp [resolve, h, getSkill, hg]

/-- Witness for the C7 theorem: empty discovery, and a discovered id missing
from the store. -/
theorem resolve_reports_not_resolved_witness :
    resolve noDisc [] "q" = .notResolved "No matching skill found." ∧
      resolve ghostDisc [] "q" = .notResolved "Skill disappeared after discovery." :=
  ⟨(resolve_reports_not_resolved noDisc [] "q").1 rfl,
    (resolve_reports_not_resolved ghostDisc [] "q").2 ghostDiscovery [] rfl rfl⟩

/-- C8: an empty allow-list grants access to every skill id on every store
state — the check short-circuits before consulting the store. -/
theorem empty_allowlist_always_accessible (store : Store) (skill_id : String) :
    isSkillAccessible store skill_id [] = true := rfl

/-- C9: outside the fixed catalogue the legacy path returns exactly the
inline `Unknown tool` error object; on the JSON-RPC path every unrecognised
method yields code `-32601` and a `tools/call` without a `name` param yields
code `-32602`. -/
theorem unknown_tool_and_method_errors (disc : String → Nat → List SkillDiscovery)
    (store : Store) :
    (∀ (name : String) (args : ToolArgs), name ≠ "find_relevant_skill" →
      name ≠ "load_instruction" → name ≠ "list_sub_skills" →
      callTool disc store name args = .ok (.error ("Unknown tool: " ++ name))) ∧
      (∀ body : RpcBody, body.method.getD "" ≠ "initialize" →
        body.method.getD "" ≠ "tools/list" → body.method.getD "" ≠ "tools/call" →
        handleJsonrpc disc store body
          = .err body.id (-32601)
            ("Method not found: \x27" ++ body.method.getD "" ++ "\x27")) ∧
      (∀ body : RpcBody, body.method = some "tools/call" →
        (body.params.getD ⟨none, none⟩).name = none →
        handleJsonrpc disc store body
          = .err body.id (-32602) "Missing required param: \x27name\x27") := by
  refine ⟨?_, ?_, ?_⟩
  · intro name args h1 h2 h3
    have b1 : (name == "find_relevant_skill") = false := by simpa using h1
    have b2 : (name == "load_instruction") = false := by simpa using h2
    have b3 : (name == "list_sub_skills") = false := by simpa using h3
    simp [callTool, b1, b2, b3]
  · intro body h1 h2 h3
    have b1 : (body.method.getD "" == "initialize") = false := by simpa using h1
    have b2 : (body.method.getD "" == "tools/list") = false := by simpa using h2
    have b3 : (body.method.getD "" == "tools/call") = false := by simpa using h3
    simp [handleJsonrpc, b1, b2, b3]
  · intro body hm hn
    simp [handleJsonrpc, hm, hn]

/-- Witness for the C9 theorem at a concrete unknown tool, unknown method and
nameless `tools/call`. -/
theorem unknown_tool_and_method_errors_witness :
    callTool noDisc [] "bogus_tool" ⟨none, none, none⟩
        = .ok (.error ("Unknown tool: " ++ "bogus_tool")) ∧
      handleJsonrpc noDisc [] ⟨some 7, some "bogus/method", none⟩
        = .err (some 7) (-32601)
          ("Method not found: \x27" ++ (some "bogus/method").getD "" ++ "\x27") ∧
      handleJsonrpc noDisc [] ⟨some 8, some "tools/call", some ⟨none, none⟩⟩
        = .err (some 8) (-32602) "Missing required param: \x27name\x27" :=
  ⟨(unknown_tool_and_method_errors noDisc []).1 "bogus_tool" ⟨none, none, none⟩
      (by decide) (by decide) (by decide),
    (unknown_tool_and_method_errors noDisc []).2.1 ⟨some 7, some "bogus/method", none⟩
      (by decide) (by decide) (by decide),
    (unknown_tool_and_method_errors noDisc []).2.2 ⟨some 8, some "tools/call", some ⟨none, none⟩⟩
      rfl rfl⟩

/-- C10: a parent id absent from the store yields the empty child list —
exactly what an existing skill with an empty `sub_skills` list yields, so the
two are indistinguishable at this interface. -/
theorem getSubSkills_missing_parent_empty (store : Store) (sid : String) :
    (getById store sid = none → getSubSkills store sid = []) ∧
      (∀ doc, getById store sid = some doc → doc.sub_skills = [] →
        getSubSkills store sid = []) := by
  constructor
  · intro h
    simp [getSubSkills, h]
  · intro doc h hsub
    simp [getSubSkills, h, hsub]

/-- Witness for the C10 theorem: a missing parent and a childless parent both
produce the empty list. -/
theorem getSubSkills_missing_parent_empty_witness :
    getSubSkills leafStore "A" = [] ∧ getSubSkills leafStore "B" = [] :=
  ⟨(getSubSkills_missing_parent_empty leafStore "A").1 rfl,
    (getSubSkills_missing_parent_empty leafStore "B").2 ⟨"B", "b", false, [], ""⟩ rfl rfl⟩
